import Mathlib

/-!
Shallow embedding of the Quad-SPI flash driver in
`src/ion/src/device/external_flash.cpp`, together with theorems settling the
spec's claims about it.

The driver issues wire transactions through one primitive,
`send_command_full`, and composes them into the public operations
(`initChip`, `MassErase`, `EraseSector`, `WriteMemory`).  The embedding has
two layers:

* a transaction-trace layer (`Tx`, the `send_*` helpers, the operation
  traces): each public operation is modelled as the list of
  `send_command_full` invocations it performs, with the unbounded busy-poll
  loop `wait()` made explicit through a fuel parameter — the trace is `none`
  exactly when the source loop never exits within the given fuel;
* a register-programming layer (`programRegisters`, `whileBusy`,
  `send_command_full`): the body of `send_command_full` (lines 90-128 of the
  source), recording the CCR/DLR/AR register fields it programs and the
  trailing hardware-busy wait.

The source hard-codes `DefaultOperatingMode = Single` as a compile-time
constant; the definitions take the constant as an explicit parameter `dm` so
that both branches of the compile-time conditional in `initChip` can be
stated, and `DefaultOperatingMode` names the value chosen in the source.
-/

namespace Flash

/-- Signal-width configuration, `QUADSPI::CCR::OperatingMode` in the source. -/
inductive OperatingMode
  | Single
  | Dual
  | Quad
deriving DecidableEq, Repr

/-- Controller functional mode, `QUADSPI::CCR::FunctionalMode` in the source. -/
inductive FunctionalMode
  | IndirectWrite
  | IndirectRead
  | MemoryMapped
deriving DecidableEq, Repr

/-- Flash command opcodes used by the driver.  The opcode values live in the
header `external_flash.h`, which is not part of the sources here; only the
identity of each command matters for the claims.  `SectorErase` stands for the
sector-erase command (named `BlockErase` in the source's commented-out call)
and `PageProgram` for the page-program command (`QuadPageProgram` in the
source's commented-out call). -/
inductive Command
  | ReadStatusRegister
  | WriteEnable
  | ChipErase
  | SectorErase
  | PageProgram
  | ReadData
  | EnableQPI
deriving DecidableEq, Repr

/-- One invocation of `send_command_full`: the argument tuple it is called
with.  `hasData` records whether the `data` pointer is non-null; `dataLength`
is the `size_t` length argument. -/
structure Tx where
  fmode : FunctionalMode
  omode : OperatingMode
  cmd : Command
  address : Nat
  dummyCycles : Nat
  hasData : Bool
  dataLength : Nat
deriving DecidableEq, Repr

/-- The source's compile-time constant
`DefaultOperatingMode = QUADSPI::CCR::OperatingMode::Single` (line 29). -/
def DefaultOperatingMode : OperatingMode := OperatingMode.Single

/-- `send_command(c)` (lines 33-40): IndirectWrite, default operating mode,
no address, no dummy cycles, null data.  `dm` is the value of the
compile-time constant `DefaultOperatingMode`. -/
def send_command (dm : OperatingMode) (c : Command) : Tx :=
  ⟨FunctionalMode.IndirectWrite, dm, c, 0, 0, false, 0⟩

/-- `send_command_single(c)` (lines 42-49): like `send_command` but always
Single operating mode. -/
def send_command_single (c : Command) : Tx :=
  ⟨FunctionalMode.IndirectWrite, OperatingMode.Single, c, 0, 0, false, 0⟩

/-- `send_read_command(c, address, data, dataLength)` (lines 60-67):
IndirectRead with a non-null data buffer. -/
def send_read_command (dm : OperatingMode) (c : Command) (address : Nat)
    (dataLength : Nat) : Tx :=
  ⟨FunctionalMode.IndirectRead, dm, c, address, 0, true, dataLength⟩

/-- `set_as_memory_mapped()` (lines 81-88): MemoryMapped, ReadData opcode,
no address, null data. -/
def set_as_memory_mapped (dm : OperatingMode) : Tx :=
  ⟨FunctionalMode.MemoryMapped, dm, Command.ReadData, 0, 0, false, 0⟩

/-- `REGS_BOOL_FIELD(BUSY, 0)` of the 16-bit status register read in `wait()`
(line 73): the busy flag is bit 0 of the register value. -/
def getBUSY (v : Nat) : Bool := v % 2 == 1

/-- The status-read transaction issued by each iteration of `wait()`
(line 77): `send_read_command(ReadStatusRegister, 0, &statusRegister,
sizeof(statusRegister))` with `statusRegister` a `Register16`, so the data
length is 2 bytes. -/
def statusPollTx (dm : OperatingMode) : Tx :=
  send_read_command dm Command.ReadStatusRegister 0 2

/-- The do-while loop of `wait()` (lines 76-78) over the stream `status` of
16-bit values successive status reads return: iteration `i` reads
`status i` and the loop exits when its busy bit is clear.  `waitN status i
fuel` returns `some n` when, starting at read index `i`, the loop exits after
the read at index `n - 1` (so `n` reads happen in total when `i = 0`), and
`none` when the loop is still running after `fuel` reads.  The source loop
has no bound; the fuel only indexes observation depth. -/
def waitN (status : Nat → Nat) : Nat → Nat → Option Nat
  | _, 0 => none
  | i, fuel + 1 =>
    if getBUSY (status i) then waitN status (i + 1) fuel else some (i + 1)

/-- `wait()` terminates on the status stream `status`: the loop exits within
some finite number of reads. -/
def wait_terminates (status : Nat → Nat) : Prop :=
  ∃ fuel n, waitN status 0 fuel = some n

/-- The transaction trace of a terminated `wait()` that performed `n` status
reads: `n` copies of the status-poll transaction. -/
def waitTrace (dm : OperatingMode) (n : Nat) : List Tx :=
  List.replicate n (statusPollTx dm)

/-- `MassErase()` (lines 164-170) as a transaction trace: WriteEnable,
ChipErase, the `wait()` polls, then `set_as_memory_mapped`.  `none` when
`wait()` has not exited within `fuel` reads (the call never returns). -/
def MassEraseTrace (dm : OperatingMode) (status : Nat → Nat) (fuel : Nat) :
    Option (List Tx) :=
  (waitN status 0 fuel).map fun n =>
    [send_command dm Command.WriteEnable, send_command dm Command.ChipErase]
      ++ waitTrace dm n ++ [set_as_memory_mapped dm]

/-- `EraseSector()` (lines 172-177) as a transaction trace.  The source
function takes no sector address and its erase command is commented out: the
trace is WriteEnable, the `wait()` polls, then `set_as_memory_mapped`. -/
def EraseSectorTrace (dm : OperatingMode) (status : Nat → Nat) (fuel : Nat) :
    Option (List Tx) :=
  (waitN status 0 fuel).map fun n =>
    [send_command dm Command.WriteEnable]
      ++ waitTrace dm n ++ [set_as_memory_mapped dm]

/-- `WriteMemory(source, destination, length)` (lines 179-185) as a
transaction trace.  The page-program command is commented out and there is no
chunking loop, so `source`, `destination` and `length` are unused and the
trace is WriteEnable, the `wait()` polls, then `set_as_memory_mapped`,
regardless of the buffer size. -/
def WriteMemoryTrace (dm : OperatingMode)
    (source destination length : Nat)
    (status : Nat → Nat) (fuel : Nat) : Option (List Tx) :=
  (waitN status 0 fuel).map fun n =>
    [send_command dm Command.WriteEnable]
      ++ waitTrace dm n ++ [set_as_memory_mapped dm]

/-- `initChip()` (lines 155-162): when the compile-time constant
`DefaultOperatingMode` is `Quad`, first `send_command_single(EnableQPI)`,
then `set_as_memory_mapped()`. -/
def initChipTrace (dm : OperatingMode) : List Tx :=
  (if dm = OperatingMode.Quad then [send_command_single Command.EnableQPI]
   else [])
    ++ [set_as_memory_mapped dm]

/-- The functional mode committed by the last transaction of a trace: the
FMODE value left in the CCR register after the call returns. -/
def finalFMode (t : List Tx) : Option FunctionalMode :=
  t.getLast?.map Tx.fmode

/-- Number of transactions in a trace carrying the command `c`. -/
def countCmd (c : Command) (t : List Tx) : Nat :=
  t.countP fun x => x.cmd == c

/-- A transaction whose signal width is Quad: `send_command_full` programs
IMODE (and, when enabled, ADMODE and DMODE) with its `operatingMode`
argument, so a transaction drives some phase at Quad width exactly when its
operating-mode argument is Quad. -/
def usesQuadWidth (x : Tx) : Bool := x.omode == OperatingMode.Quad

/-- The register fields `send_command_full` programs (lines 90-107 of the
source): the CCR fields, the data-length register DLR, and the address
register AR (written only on the `address != 0` branch, line 105-107). -/
structure Regs where
  fmode : FunctionalMode
  dmode : Option OperatingMode
  dlr : Nat
  dcyc : Nat
  admode : Option OperatingMode
  adsizeThreeBytes : Bool
  imode : OperatingMode
  instruction : Command
  arWritten : Option Nat
deriving DecidableEq, Repr

/-- The register-programming part of `send_command_full` (lines 90-107):

* DMODE is set to `operatingMode` when `data != nullptr` or the functional
  mode is MemoryMapped (lines 93-95);
* DLR is `dataLength - 1` when `dataLength > 0`, else `0` (line 96);
* DCYC is the dummy-cycle count (line 97);
* ADMODE and ADSIZE (ThreeBytes) are set when `address != 0` or the
  functional mode is MemoryMapped (lines 98-101);
* IMODE and the instruction are always set (lines 102-103);
* AR is written with `address` exactly when `address != 0` (lines 105-107). -/
def programRegisters (functionalMode : FunctionalMode)
    (operatingMode : OperatingMode) (c : Command) (address : Nat)
    (dummyCycles : Nat) (hasData : Bool) (dataLength : Nat) : Regs :=
  { fmode := functionalMode
    dmode :=
      if hasData || functionalMode == FunctionalMode.MemoryMapped then
        some operatingMode
      else none
    dlr := if dataLength > 0 then dataLength - 1 else 0
    dcyc := dummyCycles
    admode :=
      if address != 0 || functionalMode == FunctionalMode.MemoryMapped then
        some operatingMode
      else none
    adsizeThreeBytes :=
      address != 0 || functionalMode == FunctionalMode.MemoryMapped
    imode := operatingMode
    instruction := c
    arWritten := if address != 0 then some address else none }

/-- The trailing `while (QUADSPI.SR()->getBUSY()) {}` loop of
`send_command_full` (lines 124-127) over the stream `srBusy` of values the
controller's SR busy bit takes at successive checks: `whileBusy srBusy i
fuel = some n` when the first clear check from index `i` on is at index `n`
(so checks `i, ..., n - 1` all observed busy), and `none` when the bit is
still busy after `fuel` checks. -/
def whileBusy (srBusy : Nat → Bool) : Nat → Nat → Option Nat
  | _, 0 => none
  | i, fuel + 1 =>
    if srBusy i then whileBusy srBusy (i + 1) fuel else some i

/-- `send_command_full` (lines 90-128): programs the registers, then — unless
the functional mode is MemoryMapped — blocks on the SR busy bit.  Returns
`some (regs, k)` when the call returns, where `k` is the number of busy-bit
checks performed (`0` for MemoryMapped, which skips the loop entirely), and
`none` when the busy bit never clears within `fuel` checks so the call has
not returned.  Data streaming through the FIFO (lines 110-118) moves no
register state modelled here and precedes the wait. -/
def send_command_full (functionalMode : FunctionalMode)
    (operatingMode : OperatingMode) (c : Command) (address : Nat)
    (dummyCycles : Nat) (hasData : Bool) (dataLength : Nat)
    (srBusy : Nat → Bool) (fuel : Nat) : Option (Regs × Nat) :=
  let r := programRegisters functionalMode operatingMode c address dummyCycles
    hasData dataLength
  if functionalMode == FunctionalMode.MemoryMapped then some (r, 0)
  else (whileBusy srBusy 0 fuel).map fun n => (r, n + 1)

/-! ### Helper lemmas about the loops -/

theorem finalFMode_append (l : List Tx) (x : Tx) :
    finalFMode (l ++ [x]) = some x.fmode := by
  simp [finalFMode]

theorem waitN_spec (status : Nat → Nat) :
    ∀ fuel i n, waitN status i fuel = some n →
      i < n ∧ getBUSY (status (n - 1)) = false ∧
        ∀ m, i ≤ m → m < n - 1 → getBUSY (status m) = true := by
  intro fuel
  induction fuel with
  | zero => intro i n h; simp [waitN] at h
  | succ fuel ih =>
    intro i n h
    unfold waitN at h
    by_cases hb : getBUSY (status i)
    · rw [if_pos hb] at h
      obtain ⟨h1, h2, h3⟩ := ih (i + 1) n h
      refine ⟨by omega, h2, ?_⟩
      intro m him hmn
      rcases Nat.eq_or_lt_of_le him with heq | hlt
      · exact heq ▸ hb
      · exact h3 m hlt hmn
    · rw [if_neg hb] at h
      obtain rfl : i + 1 = n := by exact Option.some.inj h
      refine ⟨by omega, by simpa using hb, ?_⟩
      intro m him hmn
      omega

theorem waitN_none_of_busy (status : Nat → Nat)
    (hb : ∀ j, getBUSY (status j) = true) :
    ∀ fuel i, waitN status i fuel = none := by
  intro fuel
  induction fuel with
  | zero => intro i; rfl
  | succ fuel ih => intro i; unfold waitN; rw [if_pos (hb i)]; exact ih (i + 1)

theorem waitN_isSome_of_clear (status : Nat → Nat) :
    ∀ fuel i, (∃ m, i ≤ m ∧ m < i + fuel ∧ getBUSY (status m) = false) →
      (waitN status i fuel).isSome = true := by
  intro fuel
  induction fuel with
  | zero => intro i ⟨m, h1, h2, _⟩; omega
  | succ fuel ih =>
    intro i ⟨m, h1, h2, h3⟩
    unfold waitN
    by_cases hb : getBUSY (status i)
    · rw [if_pos hb]
      refine ih (i + 1) ⟨m, ?_, by omega, h3⟩
      rcases Nat.eq_or_lt_of_le h1 with heq | hlt
      · subst heq; simp [hb] at h3
      · omega
    · rw [if_neg hb]; rfl

theorem whileBusy_spec (srBusy : Nat → Bool) :
    ∀ fuel i n, whileBusy srBusy i fuel = some n →
      i ≤ n ∧ srBusy n = false ∧ ∀ m, i ≤ m → m < n → srBusy m = true := by
  intro fuel
  induction fuel with
  | zero => intro i n h; simp [whileBusy] at h
  | succ fuel ih =>
    intro i n h
    unfold whileBusy at h
    by_cases hb : srBusy i
    · rw [if_pos hb] at h
      obtain ⟨h1, h2, h3⟩ := ih (i + 1) n h
      refine ⟨by omega, h2, ?_⟩
      intro m him hmn
      rcases Nat.eq_or_lt_of_le him with heq | hlt
      · exact heq ▸ hb
      · exact h3 m hlt hmn
    · rw [if_neg hb] at h
      obtain rfl : i = n := Option.some.inj h
      exact ⟨le_refl i, by simpa using hb, fun m him hmn => by omega⟩

/-! ### Claim theorems -/

/-- C1: whenever a call to `MassErase`, `EraseSector` or `WriteMemory`
returns — i.e. its busy-poll loop exits, which is the only way the source
functions can return, there being no other exit path — the functional mode
committed by the last transaction is `MemoryMapped`: each operation ends with
`set_as_memory_mapped()` on its single exit path. -/
theorem mode_restored_on_return (dm : OperatingMode) (status : Nat → Nat)
    (fuel : Nat) (source destination length : Nat)
    (h : (waitN status 0 fuel).isSome = true) :
    (MassEraseTrace dm status fuel).bind finalFMode
        = some FunctionalMode.MemoryMapped ∧
    (EraseSectorTrace dm status fuel).bind finalFMode
        = some FunctionalMode.MemoryMapped ∧
    (WriteMemoryTrace dm source destination length status fuel).bind finalFMode
        = some FunctionalMode.MemoryMapped := by
  obtain ⟨n, hn⟩ := Option.isSome_iff_exists.mp h
  refine ⟨?_, ?_, ?_⟩ <;>
  · simp only [MassEraseTrace, EraseSectorTrace, WriteMemoryTrace, hn,
      Option.map_some', Option.some_bind, ← List.append_assoc]
    exact finalFMode_append _ _

/-- Witness for C1 at a concrete input: the busy bit clears on the first
status read, and all three operations finish in `MemoryMapped`. -/
theorem mode_restored_on_return_witness :
    (waitN (fun _ => 0) 0 1).isSome = true ∧
    ((MassEraseTrace OperatingMode.Single (fun _ => 0) 1).bind finalFMode
        = some FunctionalMode.MemoryMapped ∧
      (EraseSectorTrace OperatingMode.Single (fun _ => 0) 1).bind finalFMode
        = some FunctionalMode.MemoryMapped ∧
      (WriteMemoryTrace OperatingMode.Single 0 0 640 (fun _ => 0) 1).bind
          finalFMode = some FunctionalMode.MemoryMapped) :=
  ⟨by decide,
    mode_restored_on_return OperatingMode.Single (fun _ => 0) 1 0 0 640
      (by decide)⟩

/-- C2 counterexample: the source's busy-poll loop `wait()` has no attempt
bound — on a device whose status register always reads 1 (busy bit set), the
loop never exits, so the call does not terminate and no Timeout failure is
ever produced. -/
theorem wait_unbounded_hang : ¬ wait_terminates (fun _ => 1) := by
  rintro ⟨fuel, n, h⟩
  rw [waitN_none_of_busy (fun _ => 1) (fun _ => rfl) fuel 0] at h
  cases h

/-- C2 (amended): `wait()` terminates exactly when the polled busy bit
(bit 0 of the status value) eventually reads clear; there is no attempt
bound and no Timeout path. -/
theorem wait_terminates_iff (status : Nat → Nat) :
    wait_terminates status ↔ ∃ m, status m % 2 = 0 := by
  constructor
  · rintro ⟨fuel, n, h⟩
    obtain ⟨h1, h2, _⟩ := waitN_spec status fuel 0 n h
    refine ⟨n - 1, ?_⟩
    simp only [getBUSY, beq_eq_false_iff_ne] at h2
    omega
  · rintro ⟨m, hm⟩
    have hclear : getBUSY (status m) = false := by
      simp [getBUSY, hm]
    have h := waitN_isSome_of_clear status (m + 1) 0 ⟨m, by omega, by omega, hclear⟩
    obtain ⟨n, hn⟩ := Option.isSome_iff_exists.mp h
    exact ⟨m + 1, n, hn⟩

/-- C6: with the compile-time default operating mode set to `Quad`,
`initChip` issues exactly one `EnableQPI` command; everything preceding the
first Quad-width transaction is exactly the Single-width `EnableQPI`
transaction; the chip ends in `MemoryMapped`.  With the default set to
`Single` (the value the source selects), no `EnableQPI` is issued. -/
theorem initChip_qpi_single_width :
    countCmd Command.EnableQPI (initChipTrace OperatingMode.Quad) = 1 ∧
    (initChipTrace OperatingMode.Quad).takeWhile (fun x => !usesQuadWidth x)
        = [send_command_single Command.EnableQPI] ∧
    (send_command_single Command.EnableQPI).omode = OperatingMode.Single ∧
    finalFMode (initChipTrace OperatingMode.Quad)
        = some FunctionalMode.MemoryMapped ∧
    countCmd Command.EnableQPI (initChipTrace OperatingMode.Single) = 0 ∧
    finalFMode (initChipTrace OperatingMode.Single)
        = some FunctionalMode.MemoryMapped := by
  decide

/-- C10: the data-length register DLR is programmed with `dataLength - 1`
when `dataLength > 0` and with `0` when `dataLength = 0`; in particular
data lengths 0 and 1 program the identical DLR value. -/
theorem dlr_programming (functionalMode : FunctionalMode)
    (operatingMode : OperatingMode) (c : Command) (address dummyCycles : Nat)
    (hasData : Bool) (dataLength : Nat) :
    (0 < dataLength →
      (programRegisters functionalMode operatingMode c address dummyCycles
          hasData dataLength).dlr = dataLength - 1) ∧
    (programRegisters functionalMode operatingMode c address dummyCycles
        hasData 0).dlr = 0 ∧
    (programRegisters functionalMode operatingMode c address dummyCycles
        hasData 0).dlr
      = (programRegisters functionalMode operatingMode c address dummyCycles
          hasData 1).dlr := by
  refine ⟨fun h => ?_, rfl, rfl⟩
  simp [programRegisters, h]

/-- Witness for C10 at a concrete input: data length 5 programs DLR = 4, and
data lengths 0 and 1 both program DLR = 0. -/
theorem dlr_programming_witness :
    (0 < 5 ∧
      (programRegisters FunctionalMode.IndirectWrite OperatingMode.Single
          Command.PageProgram 0 0 true 5).dlr = 5 - 1) ∧
    (programRegisters FunctionalMode.IndirectWrite OperatingMode.Single
        Command.PageProgram 0 0 true 0).dlr = 0 ∧
    (programRegisters FunctionalMode.IndirectWrite OperatingMode.Single
        Command.PageProgram 0 0 true 0).dlr
      = (programRegisters FunctionalMode.IndirectWrite OperatingMode.Single
          Command.PageProgram 0 0 true 1).dlr :=
  have h := dlr_programming FunctionalMode.IndirectWrite OperatingMode.Single
    Command.PageProgram 0 0 true 5
  ⟨⟨by decide, h.1 (by decide)⟩,
    (dlr_programming FunctionalMode.IndirectWrite OperatingMode.Single
      Command.PageProgram 0 0 true 5).2⟩

/-- C3: evaluation of the source's `WriteMemory` at a buffer of 640 bytes
(2.5 times the 256-byte page-program limit named in the source's TODO
comment): the trace contains exactly one `WriteEnable` and zero `PageProgram`
commands — there is no chunking loop — and the trace is identical to the one
produced for a 1-byte buffer, i.e. independent of the buffer size. -/
theorem writeMemory_no_chunking :
    (WriteMemoryTrace OperatingMode.Single 0 0 640 (fun _ => 0) 1).map
        (countCmd Command.WriteEnable) = some 1 ∧
    (WriteMemoryTrace OperatingMode.Single 0 0 640 (fun _ => 0) 1).map
        (countCmd Command.PageProgram) = some 0 ∧
    WriteMemoryTrace OperatingMode.Single 0 0 640 (fun _ => 0) 1
      = WriteMemoryTrace OperatingMode.Single 0 0 1 (fun _ => 0) 1 := by
  decide

/-- C4: evaluation of the source's `EraseSector`: its trace contains no
`SectorErase` command at all (the erase command is commented out in the
source, which also accepts no sector address), only the `WriteEnable`, the
status polls, and the return to `MemoryMapped`. -/
theorem eraseSector_missing_erase_command :
    (EraseSectorTrace OperatingMode.Single (fun _ => 0) 1).map
        (countCmd Command.SectorErase) = some 0 ∧
    (EraseSectorTrace OperatingMode.Single (fun _ => 0) 1).map
        (countCmd Command.WriteEnable) = some 1 := by
  decide

/-- C5: the source's `EraseSector` performs no alignment validation and has
no rejection path — it accepts no address at all, and its very first step is
a hardware `WriteEnable` transaction, issued unconditionally on every call. -/
theorem eraseSector_no_alignment_check :
    (EraseSectorTrace OperatingMode.Single (fun _ => 0) 1).bind List.head?
      = some (send_command OperatingMode.Single Command.WriteEnable) := by
  decide

/-- C7: a MemoryMapped transaction returns immediately — `some (regs, 0)`
busy checks, for every busy stream and even with zero fuel, the wait loop
being skipped — while a transaction in any other functional mode returns only
after the hardware-busy bit is observed clear: when it returns after `k`
checks, check `k - 1` observed the bit clear and every earlier check observed
it busy. -/
theorem send_command_full_busy_wait (operatingMode : OperatingMode)
    (c : Command) (address dummyCycles : Nat) (hasData : Bool)
    (dataLength : Nat) (srBusy : Nat → Bool) (fuel : Nat) :
    send_command_full FunctionalMode.MemoryMapped operatingMode c address
        dummyCycles hasData dataLength srBusy fuel
      = some (programRegisters FunctionalMode.MemoryMapped operatingMode c
          address dummyCycles hasData dataLength, 0) ∧
    (∀ functionalMode, functionalMode ≠ FunctionalMode.MemoryMapped →
      ∀ r k, send_command_full functionalMode operatingMode c address
          dummyCycles hasData dataLength srBusy fuel = some (r, k) →
        1 ≤ k ∧ srBusy (k - 1) = false ∧
          ∀ m, m < k - 1 → srBusy m = true) := by
  constructor
  · rfl
  · intro functionalMode hfm r k h
    have hb : (functionalMode == FunctionalMode.MemoryMapped) = false := by
      cases functionalMode <;> simp_all
    unfold send_command_full at h
    simp only [hb, Bool.false_eq_true, if_false, Option.map_eq_some'] at h
    obtain ⟨n, hn, hrk⟩ := h
    obtain ⟨-, h2, h3⟩ := whileBusy_spec srBusy fuel 0 n hn
    have hk : k = n + 1 := (Prod.mk.injEq _ _ _ _ ▸ hrk).2.symm
    subst hk
    exact ⟨by omega, by simpa using h2, fun m hm => h3 m (Nat.zero_le m) (by omega)⟩

/-- Witness for C7 at concrete inputs: a MemoryMapped transaction with an
always-busy stream and zero fuel still returns with zero checks, and an
IndirectRead transaction over a stream that is clear at the first check
returns after exactly one check, which observed the bit clear. -/
theorem send_command_full_busy_wait_witness :
    send_command_full FunctionalMode.MemoryMapped OperatingMode.Single
        Command.ReadData 0 0 false 0 (fun _ => true) 0
      = some (programRegisters FunctionalMode.MemoryMapped OperatingMode.Single
          Command.ReadData 0 0 false 0, 0) ∧
    (1 ≤ 1 ∧ (fun _ : Nat => false) (1 - 1) = false ∧
      ∀ m, m < 1 - 1 → (fun _ : Nat => false) m = true) := by
  refine ⟨(send_command_full_busy_wait OperatingMode.Single Command.ReadData 0 0
      false 0 (fun _ => true) 0).1, ?_⟩
  exact (send_command_full_busy_wait OperatingMode.Single Command.ReadData 0 0
      false 0 (fun _ => false) 1).2 FunctionalMode.IndirectRead (by decide)
      (programRegisters FunctionalMode.IndirectRead OperatingMode.Single
        Command.ReadData 0 0 false 0) 1 rfl

/-- C8 counterexample: a non-memory-mapped transaction whose supplied address
is 0 — here a `PageProgram` targeting flash offset 0 — neither enables the
address phase nor writes the address register: the source encodes address
presence as `address != 0`, so a supplied address of 0 is dropped. -/
theorem address_zero_not_written :
    (programRegisters FunctionalMode.IndirectWrite OperatingMode.Single
        Command.PageProgram 0 0 true 4).arWritten = none ∧
    (programRegisters FunctionalMode.IndirectWrite OperatingMode.Single
        Command.PageProgram 0 0 true 4).admode = none := by
  decide

/-- C8 (amended): the address phase (ADMODE at the chosen width, ADSIZE
three bytes) is enabled exactly when the address is nonzero or the functional
mode is MemoryMapped, and the address register is written with the supplied
address exactly when the address is nonzero — address 0 counts as absent. -/
theorem address_phase_exactly (functionalMode : FunctionalMode)
    (operatingMode : OperatingMode) (c : Command)
    (address dummyCycles : Nat) (hasData : Bool) (dataLength : Nat) :
    ((programRegisters functionalMode operatingMode c address dummyCycles
        hasData dataLength).admode = some operatingMode
      ↔ (address ≠ 0 ∨ functionalMode = FunctionalMode.MemoryMapped)) ∧
    ((programRegisters functionalMode operatingMode c address dummyCycles
        hasData dataLength).adsizeThreeBytes = true
      ↔ (address ≠ 0 ∨ functionalMode = FunctionalMode.MemoryMapped)) ∧
    ((programRegisters functionalMode operatingMode c address dummyCycles
        hasData dataLength).arWritten = some address ↔ address ≠ 0) := by
  by_cases ha : address = 0 <;> cases functionalMode <;>
    simp [programRegisters, ha]

/-- C9 counterexample: the status-poll transaction of `wait()` carries a
2-byte data payload (the source reads `sizeof(Register16)` bytes), not the
1-byte payload the claim states. -/
theorem status_poll_payload_two_bytes :
    (statusPollTx DefaultOperatingMode).dataLength = 2 ∧
    ¬(statusPollTx DefaultOperatingMode).dataLength = 1 := by
  decide

/-- C9 (amended): each polling step of `wait()` issues an indirect-read
`ReadStatusRegister` transaction with a 2-byte payload, and readiness is
decided by bit 0 of the value read: when the loop exits after `n` reads, read
`n - 1` returned an even value (bit 0 clear) and every earlier read returned
an odd value (bit 0 set). -/
theorem wait_polls_status (status : Nat → Nat) (fuel n : Nat)
    (h : waitN status 0 fuel = some n) :
    1 ≤ n ∧ status (n - 1) % 2 = 0 ∧
    (∀ m, m < n - 1 → status m % 2 = 1) ∧
    waitTrace DefaultOperatingMode n
      = List.replicate n (send_read_command DefaultOperatingMode
          Command.ReadStatusRegister 0 2) ∧
    (statusPollTx DefaultOperatingMode).fmode = FunctionalMode.IndirectRead := by
  obtain ⟨h1, h2, h3⟩ := waitN_spec status fuel 0 n h
  refine ⟨h1, ?_, ?_, rfl, rfl⟩
  · simp only [getBUSY, beq_eq_false_iff_ne] at h2
    omega
  · intro m hm
    have hmb := h3 m (Nat.zero_le m) hm
    simpa only [getBUSY, beq_iff_eq] using hmb

/-- Witness for C9 at a concrete input: the busy bit is clear on the first
status read (value 0), so the loop exits after exactly one 2-byte
`ReadStatusRegister` poll. -/
theorem wait_polls_status_witness :
    waitN (fun _ => 0) 0 1 = some 1 ∧
    (1 ≤ 1 ∧ (0 : Nat) % 2 = 0 ∧
      (∀ m, m < 1 - 1 → (fun _ : Nat => (0 : Nat)) m % 2 = 1) ∧
      waitTrace DefaultOperatingMode 1
        = List.replicate 1 (send_read_command DefaultOperatingMode
            Command.ReadStatusRegister 0 2) ∧
      (statusPollTx DefaultOperatingMode).fmode
        = FunctionalMode.IndirectRead) :=
  ⟨rfl, wait_polls_status (fun _ => 0) 1 1 rfl⟩

end Flash
